import Mathlib

/-!
Shallow embedding, in Lean 4, of the core of the pyIcePAP client library
(files src/icepap/motion.py, src/icepap/group.py, src/icepap/tools.py,
src/icepap/tcp.py).  Effectful Python methods are modelled as pure
functions that return, alongside their result, the ordered list of
externally visible actions (controller commands, socket operations, hook
invocations) that the method performs.  Python exceptions are modelled
explicitly: an exception value is either an ordinary Exception or a
BaseException that is not an Exception (such as KeyboardInterrupt), since
the sources distinguish the two with except-Exception clauses.
-/

namespace Icepap

/-- Model of a Python exception value: either an ordinary Exception or a
BaseException that is not an Exception (for instance KeyboardInterrupt). -/
inductive Exc where
  | ordinary (msg : String)
  | fatal (msg : String)
deriving DecidableEq, Repr

/-- Predicate deciding whether the exception is an ordinary Exception,
the only kind caught by an except-Exception clause. -/
def Exc.isOrdinary : Exc → Bool
  | .ordinary _ => true
  | .fatal _ => false

/-- Externally visible actions performed by the motion layer
(src/icepap/motion.py): invoking the on_start_stop hook with the fault
info, the batched Group.stop command, Group.wait_stopped with its timeout
argument, invoking the on_end_stop hook, and the batched
Group.start_move command with its target positions. -/
inductive MEvent where
  | callStartStopHook (info : Option Exc)
  | callGroupStop
  | callWaitStopped (timeout : Option Nat)
  | callEndStopHook
  | callStartMove (targets : List Int)
deriving DecidableEq, Repr

/-- Model of BaseMotion (src/icepap/motion.py lines 11-45).  The two
lifecycle hooks are modelled by the outcome of invoking them: none means
the hook returns normally, some e means it raises e. -/
structure BaseMotion where
  sync_stop : Bool
  hookStartOutcome : Option Exc
  hookEndOutcome : Option Exc
deriving DecidableEq, Repr

/-- Model of the except-Exception clause in BaseMotion materialized by
the private helpers at lines 35-45: an ordinary Exception raised by a
hook is swallowed (printed), anything else propagates. -/
def swallowOrdinary : Option Exc → Option Exc
  | some e => if e.isOrdinary then none else some e
  | none => none

/-- Model of BaseMotion._start_stop (lines 35-39): invoke the
on_start_stop hook with the fault info, swallowing ordinary Exceptions.
Returns the trace of actions and the exception that escapes, if any. -/
def BaseMotion.start_stop (m : BaseMotion) (info : Option Exc) :
    List MEvent × Option Exc :=
  ([MEvent.callStartStopHook info], swallowOrdinary m.hookStartOutcome)

/-- Model of BaseMotion._end_stop (lines 41-45): invoke the on_end_stop
hook, swallowing ordinary Exceptions. -/
def BaseMotion.end_stop (m : BaseMotion) : List MEvent × Option Exc :=
  ([MEvent.callEndStopHook], swallowOrdinary m.hookEndOutcome)

/-- Model of BaseMotion.stop (lines 27-33): run _start_stop with the
fault info, then self.group.stop(), then, when sync_stop is set,
self.group.wait_stopped() with no timeout, then _end_stop.  An exception
escaping _start_stop (only possible for a non-Exception BaseException)
aborts the sequence and propagates. -/
def BaseMotion.stop (m : BaseMotion) (info : Option Exc) :
    List MEvent × Option Exc :=
  match m.start_stop info with
  | (evs, some e) => (evs, some e)
  | (evs, none) =>
    let mid := MEvent.callGroupStop ::
      (if m.sync_stop then [MEvent.callWaitStopped none] else [])
    let tail := m.end_stop
    (evs ++ mid ++ tail.1, tail.2)

/-- Model of Motion (src/icepap/motion.py lines 48-80) restricted to
what the scoped-usage claims need: the caller-supplied target positions
and the start positions captured at construction time. -/
structure Motion where
  base : BaseMotion
  target_positions : List Int
  start_positions : List Int
deriving DecidableEq, Repr

/-- Model of Motion.__init__ (lines 50-55): the start positions are
snapshotted from the group position query at construction; no move
command is issued by the constructor itself. -/
def Motion.make (base : BaseMotion) (targets currentPos : List Int) : Motion :=
  { base := base, target_positions := targets, start_positions := currentPos }

/-- Model of Motion.start (lines 72-73): issue the batched
group.start_move command with the target positions. -/
def Motion.start (m : Motion) : List MEvent :=
  [MEvent.callStartMove m.target_positions]

/-- Model of BaseMotion.__enter__ (lines 19-21): it calls self.start()
and returns self, so entering the scope issues the move command. -/
def Motion.enter (m : Motion) : List MEvent :=
  m.start

/-- Model of BaseMotion.__exit__ (lines 23-25): nothing happens when no
exception is active; with an active exception, stop is invoked with the
fault information (and the fault propagates afterwards, since __exit__
returns None). -/
def Motion.exitScope (m : Motion) (exc : Option Exc) :
    List MEvent × Option Exc :=
  match exc with
  | none => ([], none)
  | some e => m.base.stop (some e)

/-! Model of src/icepap/group.py. -/

/-- Model of a motor handle (IcePAPAxis): the owning controller and the
axis address, which is all the group layer inspects. -/
structure Axis where
  ctrl : Nat
  addr : Nat
deriving DecidableEq, Repr

/-- Model of a Python error raised by the group layer: the TypeError of
the normalization helper, the UnboundLocalError raised when a local
variable is read before assignment, and the AssertionError of
Group.__init__. -/
inductive PyError where
  | typeError (msg : String)
  | unboundLocal (name : String)
  | assertionError (msg : String)
deriving DecidableEq, Repr

/-- Model of Group.__init__ (src/icepap/group.py lines 10-16): the set
of controllers of the motors must have exactly one element, otherwise
the assert fails; the motor list is kept in order. -/
def mkGroup (motors : List Axis) : Except PyError (List Axis) :=
  if ((motors.map Axis.ctrl).dedup).length = 1 then Except.ok motors
  else Except.error (PyError.assertionError "Group motors must be from same controller")

/-- Model of the argument accepted by the normalization helper group()
(src/icepap/group.py lines 90-100): a Group, a single IcePAPAxis, a
sequence of axes, or anything else. -/
inductive GroupParam where
  | grp (motors : List Axis)
  | axis (a : Axis)
  | seq (motors : List Axis)
  | other
deriving DecidableEq, Repr

/-- Model of the helper group() (src/icepap/group.py lines 90-100).  A
Group is returned unchanged; for a single IcePAPAxis the code builds
Group([obj]) and then executes the leftover line 95,
target_positions = [target_positions], which reads the unassigned local
target_positions and raises UnboundLocalError; a sequence is wrapped in
a Group; anything else raises TypeError. -/
def group : GroupParam → Except PyError (List Axis)
  | GroupParam.grp motors => Except.ok motors
  | GroupParam.axis a =>
    match mkGroup [a] with
    | Except.ok _ => Except.error (PyError.unboundLocal "target_positions")
    | Except.error e => Except.error e
  | GroupParam.seq motors => mkGroup motors
  | GroupParam.other =>
    Except.error (PyError.typeError "parameter must be Group, Axis or sequence of Axis")

/-- Python truthiness of the optional timeout argument: None and 0 are
falsy, every other number is truthy. -/
def pyTruthy : Option Int → Bool
  | none => false
  | some t => decide (t ≠ 0)

/-- Model of Group.wait_stopped (src/icepap/group.py lines 77-87) over
an abstract motion observation: moving k is the value of the is_moving
query at the k-th poll.  Time is counted in integer milliseconds and the
elapsed time after k sleeps of the fixed interval is k * interval (the
queries themselves are treated as instantaneous).  The loop polls
is_moving; while it is true it sleeps one interval and then, only when
the timeout argument is truthy, compares the elapsed time against the
timeout, returning False once elapsed exceeds it; when the poll reports
not moving it returns True.  The result carries the number of sleeps
performed; fuel bounds the unrolling and none models nontermination
within the given fuel. -/
def wait_stopped (moving : Nat → Bool) (timeout : Option Int) (interval : Int) :
    Nat → Nat → Option (Bool × Nat)
  | 0, _ => none
  | fuel + 1, k =>
    if moving k then
      if pyTruthy timeout ∧ ((k + 1 : Int) * interval > timeout.getD 0) then
        some (false, k + 1)
      else
        wait_stopped moving timeout interval fuel (k + 1)
    else
      some (true, k)

/-! Model of src/icepap/tools.py. -/

/-- Controller command issued by the power guard: one batched set_power
call carrying the axis list and the desired boolean. -/
inductive PEvent where
  | setPower (axes : List Nat) (value : Bool)
deriving DecidableEq, Repr

/-- Snapshot of a group as the power guard sees it: the axis ids and,
aligned by position, the current power flag of each axis. -/
structure PowerGroup where
  axes : List Nat
  powers : List Bool
deriving DecidableEq, Repr

/-- Model of the generator body of ensure_power (src/icepap/tools.py
lines 6-38).  On entry it computes to_power, the axes whose power flag
differs from the desired boolean, and issues one batched set_power on
that subset when it is non-empty; then it yields to the guarded block.
The source has no try/finally around the yield, so when the guarded
block raises, the exception is thrown at the yield point and the
generator unwinds at once: the restoring set_power after the yield runs
only on a normal exit.  The boolean bodyRaises selects the exit path;
the result is the trace of set_power commands plus whether the body
exception propagates. -/
def ensure_power (g : PowerGroup) (onv : Bool) (bodyRaises : Bool) :
    List PEvent × Bool :=
  let to_power := (g.axes.zip g.powers).filterMap
    (fun ap => if ap.2 ≠ onv then some ap.1 else none)
  let entry := if to_power.isEmpty then [] else [PEvent.setPower to_power onv]
  if bodyRaises then
    (entry, true)
  else
    (entry ++ (if to_power.isEmpty then [] else [PEvent.setPower to_power (!onv)]),
      false)

/-- Interpretation of a trace of set_power commands on the power flags
of a group, aligning axis ids with flags by position. -/
def applyPowerTrace (axes : List Nat) (powers : List Bool) :
    List PEvent → List Bool
  | [] => powers
  | PEvent.setPower targets v :: rest =>
    applyPowerTrace axes
      ((axes.zip powers).map (fun ap => if ap.1 ∈ targets then v else ap.2)) rest

/-! Model of src/icepap/tcp.py. -/

/-- Connection state of the raw transport (src/icepap/tcp.py line 12):
OPENING, OPEN or CLOSED. -/
inductive ConnState where
  | opening
  | opened
  | closed
deriving DecidableEq, Repr

/-- Faults raised by the raw transport: a socket timeout
(Timeout = socket.timeout) or a connection fault carrying a message. -/
inductive RErr where
  | timeoutErr
  | connError (msg : String)
deriving DecidableEq, Repr

/-- Observable state of a RawTCP instance (src/icepap/tcp.py lines
99-108): the connection state and the internal line buffer.  Bytes are
modelled as characters. -/
structure RawConn where
  state : ConnState
  buffer : List Char
deriving DecidableEq, Repr

/-- Model of RawTCP.close (lines 164-174): the state becomes CLOSED and
the buffer is cleared. -/
def RawConn.close (_ : RawConn) : RawConn :=
  { state := ConnState.closed, buffer := [] }

/-- Model of the close_on_error decorator (lines 88-96): the wrapped
body runs, and if it raises anything at all (the decorator catches
BaseException, so socket timeouts included) the connection is closed
before the fault is re-raised. -/
def close_on_error {α : Type} (body : RawConn → RawConn × Except RErr α)
    (c : RawConn) : RawConn × Except RErr α :=
  match body c with
  | (c2, Except.ok v) => (c2, Except.ok v)
  | (c2, Except.error e) => (c2.close, Except.error e)

/-- Outcome of the single select call inside RawTCP._read (lines
129-142): the socket became readable and recv returned the given bytes,
or select expired. -/
inductive SelectOutcome where
  | ready (data : List Char)
  | expired
deriving DecidableEq, Repr

/-- Model of the body of RawTCP._read (lines 129-142): if the buffer is
non-empty it is returned whole and cleared without touching the socket;
otherwise one select is performed: readable with empty recv means the
remote end closed (ConnectionError), readable with data returns the
data, and an expired select raises Timeout. -/
def read_body (sel : SelectOutcome) (c : RawConn) :
    RawConn × Except RErr (List Char) :=
  if c.buffer.isEmpty then
    match sel with
    | SelectOutcome.ready [] => (c, Except.error (RErr.connError "remote end closed"))
    | SelectOutcome.ready data => (c, Except.ok data)
    | SelectOutcome.expired => (c, Except.error RErr.timeoutErr)
  else
    ({ c with buffer := [] }, Except.ok c.buffer)

/-- Model of RawTCP._read with its close_on_error decorator applied. -/
def rawRead (c : RawConn) (sel : SelectOutcome) :
    RawConn × Except RErr (List Char) :=
  close_on_error (read_body sel) c

/-- Outcome of the sendall call inside RawTCP._write (src/icepap/tcp.py
lines 125-127): either every byte was sent, or the socket raised the
given fault (a timeout or a connection fault). -/
inductive SendOutcome where
  | sent
  | failed (e : RErr)
deriving DecidableEq, Repr

/-- Model of the body of RawTCP._write (lines 125-127): it performs
self._sock.sendall(data), which either returns with all bytes sent or
raises; the connection state and line buffer are untouched by the body
itself. -/
def write_body (data : List Char) (snd : SendOutcome) (c : RawConn) :
    RawConn × Except RErr Unit :=
  match snd with
  | SendOutcome.sent => (c, Except.ok ())
  | SendOutcome.failed e => (c, Except.error e)

/-- Model of RawTCP._write with its close_on_error decorator applied:
any fault raised by sendall closes the connection before re-raising. -/
def rawWrite (c : RawConn) (data : List Char) (snd : SendOutcome) :
    RawConn × Except RErr Unit :=
  close_on_error (write_body data snd) c

/-- Model of bytes.partition restricted to a one-byte separator, which
is how RawTCP._readline uses it (the default eol is the single byte
newline): scan for the first occurrence of the separator and return the
head up to and including it together with the remainder; none when the
separator does not occur. -/
def splitEol (sep : Char) : List Char → Option (List Char × List Char)
  | [] => none
  | b :: rest =>
    if b = sep then some ([b], rest)
    else
      match splitEol sep rest with
      | some p => some (b :: p.1, p.2)
      | none => none

/-- Reason the socket stream stops producing chunks: the timeout budget
ran out during a select (Timeout is raised), or recv returned no data
because the peer closed, which ends the stream generator and makes the
for-else clause of _readline raise ConnectionError. -/
inductive StreamEnd where
  | timedOut
  | eof
deriving DecidableEq, Repr

/-- Model of the accumulation loop of RawTCP._readline (lines 152-159)
over the successive chunks produced by the socket: each chunk is
appended to the buffer, which is then partitioned on the separator; on a
hit the line is returned and the leftover kept, with the unread chunks
untouched.  When the chunks are exhausted the stream ends as described
by the StreamEnd argument: a timeout raises Timeout, a peer close makes
the for-else raise ConnectionError.  An empty chunk models recv
returning no data, which also ends the stream with ConnectionError.
Returns the final buffer, the chunks not consumed, and the outcome. -/
def readline_go (sep : Char) :
    List Char → List (List Char) → StreamEnd →
    List Char × List (List Char) × Except RErr (List Char)
  | buf, [], fin =>
    (buf, [],
      Except.error
        (match fin with
        | StreamEnd.timedOut => RErr.timeoutErr
        | StreamEnd.eof => RErr.connError "remote end closed"))
  | buf, chunk :: rest, fin =>
    if chunk.isEmpty then
      (buf, rest, Except.error (RErr.connError "remote end closed"))
    else
      match splitEol sep (buf ++ chunk) with
      | some p => (p.2, rest, Except.ok p.1)
      | none => readline_go sep (buf ++ chunk) rest fin

/-- Model of the body of RawTCP._readline (lines 144-159): the buffer is
partitioned on the separator first, and only when no separator is
present does the socket loop run. -/
def readline_body (sep : Char) (chunks : List (List Char)) (fin : StreamEnd)
    (c : RawConn) : RawConn × List (List Char) × Except RErr (List Char) :=
  match splitEol sep c.buffer with
  | some p => ({ c with buffer := p.2 }, chunks, Except.ok p.1)
  | none =>
    let r := readline_go sep c.buffer chunks fin
    ({ c with buffer := r.1 }, r.2.1, r.2.2)

/-- Model of RawTCP._readline with its close_on_error decorator applied
(any escaping fault, timeouts included, closes the connection). -/
def rawReadline (sep : Char) (c : RawConn) (chunks : List (List Char))
    (fin : StreamEnd) : RawConn × List (List Char) × Except RErr (List Char) :=
  match readline_body sep chunks fin c with
  | (c2, rem, Except.ok v) => (c2, rem, Except.ok v)
  | (c2, rem, Except.error e) => (c2.close, rem, Except.error e)

/-- Newline character, the default end-of-line byte of the transport. -/
def eolChar : Char := Char.ofNat 10

/-- Run of n successive readline calls against the same connection and
the same pending socket chunks, threading the connection state and the
unread chunks from call to call; collects the results in order. -/
def readLines (sep : Char) (fin : StreamEnd) :
    Nat → RawConn → List (List Char) →
    List (Except RErr (List Char)) × RawConn × List (List Char)
  | 0, c, chunks => ([], c, chunks)
  | n + 1, c, chunks =>
    match rawReadline sep c chunks fin with
    | (c2, rem, res) =>
      match readLines sep fin n c2 rem with
      | (rs, cF, remF) => (res :: rs, cF, remF)

/-- Outcome of one select call inside the stream generator (lines
60-73): the socket became readable after the given elapsed
milliseconds and recv returned the given bytes, or select expired
after the given elapsed milliseconds.  Time is modelled in integer
milliseconds. -/
inductive SelectEvent where
  | ready (data : List Char) (elapsed : Int)
  | expired (elapsed : Int)
deriving DecidableEq, Repr

/-- Way the modelled stream run ends: Timeout was raised, recv returned
empty and the generator stopped, or the supplied select outcomes were
exhausted with the loop still running. -/
inductive StreamOutcome where
  | timedOut
  | eof
  | pending
deriving DecidableEq, Repr

/-- Model of the generator stream (src/icepap/tcp.py lines 60-73) run
against a list of select outcomes.  Each iteration reads the monotonic
clock before the select (start, taken as 0 for the iteration) and after
it (endT = elapsed), then executes the source line
timeout -= start - end, modelled as t - (start - endT): since
start - endT = -elapsed, the remaining budget gains the elapsed time.
It then raises Timeout when the budget is not None and non-positive or
when select reported no reader, stops when recv returns no data, and
otherwise yields the chunk and loops.  Returns the yielded chunks, the
final budget, and how the loop ended. -/
def stream (timeout : Option Int) :
    List SelectEvent → List (List Char) × Option Int × StreamOutcome
  | [] => ([], timeout, StreamOutcome.pending)
  | ev :: evs =>
    match ev with
    | SelectEvent.expired elapsed =>
      let start : Int := 0
      let endT : Int := elapsed
      let t2 := timeout.map (fun t => t - (start - endT))
      ([], t2, StreamOutcome.timedOut)
    | SelectEvent.ready data elapsed =>
      let start : Int := 0
      let endT : Int := elapsed
      let t2 := timeout.map (fun t => t - (start - endT))
      if (match t2 with | some t => decide (t ≤ 0) | none => false) then
        ([], t2, StreamOutcome.timedOut)
      else if data.isEmpty then
        ([], t2, StreamOutcome.eof)
      else
        match stream t2 evs with
        | (rest, tF, oc) => (data :: rest, tF, oc)

/-- Observable state of the reconnecting TCP client (src/icepap/tcp.py
lines 216-238): whether a live (non-CLOSED) transport is attached, and
the reconnect counter. -/
structure TCPConn where
  connected : Bool
  counter : Nat
deriving DecidableEq, Repr

/-- Externally visible actions of the reconnecting client: creating a
fresh RawTCP transport (a real connection attempt), invoking the
wrapped transport operation, and calling self.close(). -/
inductive TEvent where
  | connectAttempt
  | opInvoke
  | closeCall
deriving DecidableEq, Repr

/-- Behaviour of one invocation of the wrapped transport operation:
it returns, raises a socket Timeout, or raises another OSError. -/
inductive OpOutcome where
  | ok
  | timeoutFault
  | osFault
deriving DecidableEq, Repr

/-- Faults escaping the reconnecting client. -/
inductive TErr where
  | timeoutE
  | osE
deriving DecidableEq, Repr

/-- Result of the wrapped operation as the ensure_connection wrapper
sees it. -/
def opResult : OpOutcome → Except TErr Unit
  | OpOutcome.ok => Except.ok ()
  | OpOutcome.timeoutFault => Except.error TErr.timeoutE
  | OpOutcome.osFault => Except.error TErr.osE

/-- Effect of invoking the wrapped transport operation on the client
state: on any fault the close_on_error decorator inside RawTCP closes
the raw transport, so the client no longer reports a live connection. -/
def invokeOp (s : TCPConn) (o : OpOutcome) : TCPConn × Except TErr Unit :=
  (match o with
    | OpOutcome.ok => s
    | _ => { s with connected := false },
   opResult o)

/-- Model of TCP._ensure_connected (lines 230-238): nothing happens when
a live transport exists; otherwise a fresh RawTCP is created and the
reconnect counter is incremented.  Returns whether this call created
the connection, the new state, and the trace. -/
def ensure_connected (s : TCPConn) : Bool × TCPConn × List TEvent :=
  if s.connected then (false, s, [])
  else (true, { connected := true, counter := s.counter + 1 }, [TEvent.connectAttempt])

/-- Model of the ensure_connection decorator (lines 199-213) around one
public operation, with the operation outcomes supplied per invocation
index: first _ensure_connected runs and records whether it created the
connection; the operation is invoked; a Timeout is re-raised as is; any
other OSError makes the wrapper call self.close() and then either
re-raise (when this same call created the connection) or reconnect and
invoke the operation exactly once more, whose outcome is final. -/
def ensure_connection (outcomes : Nat → OpOutcome) (s : TCPConn) :
    List TEvent × TCPConn × Except TErr Unit :=
  let e1 := ensure_connected s
  let made := e1.1
  let s1 := e1.2.1
  let ev1 := e1.2.2 ++ [TEvent.opInvoke]
  let r1 := invokeOp s1 (outcomes 0)
  match r1.2 with
  | Except.ok _ => (ev1, r1.1, Except.ok ())
  | Except.error TErr.timeoutE => (ev1, r1.1, Except.error TErr.timeoutE)
  | Except.error TErr.osE =>
    let s2 : TCPConn := { r1.1 with connected := false }
    if made then
      (ev1 ++ [TEvent.closeCall], s2, Except.error TErr.osE)
    else
      let e2 := ensure_connected s2
      let r2 := invokeOp e2.2.1 (outcomes 1)
      (ev1 ++ [TEvent.closeCall] ++ e2.2.2 ++ [TEvent.opInvoke], r2.1, r2.2)

/-- C1: when both lifecycle hooks raise nothing or only ordinary
Exceptions, BaseMotion.stop performs exactly, in order: the
on_start_stop hook invocation with the fault info, Group.stop,
Group.wait_stopped with no timeout if and only if sync_stop is set, and
the on_end_stop hook invocation; no exception escapes to the caller. -/
theorem stop_sequence_spec (m : BaseMotion) (info : Option Exc)
    (h1 : ∀ e, m.hookStartOutcome = some e → e.isOrdinary = true)
    (h2 : ∀ e, m.hookEndOutcome = some e → e.isOrdinary = true) :
    m.stop info =
      (MEvent.callStartStopHook info :: MEvent.callGroupStop ::
        ((if m.sync_stop then [MEvent.callWaitStopped none] else []) ++
          [MEvent.callEndStopHook]), none) := by
  have hs : swallowOrdinary m.hookStartOutcome = none := by
    cases hm : m.hookStartOutcome with
    | none => rfl
    | some e => simp [swallowOrdinary, h1 e hm]
  have he : swallowOrdinary m.hookEndOutcome = none := by
    cases hm : m.hookEndOutcome with
    | none => rfl
    | some e => simp [swallowOrdinary, h2 e hm]
  simp [BaseMotion.stop, BaseMotion.start_stop, BaseMotion.end_stop, hs, he]

/-- Witness for C1: a concrete motion whose start hook raises an
ordinary Exception still runs the full stop sequence. -/
theorem stop_sequence_spec_witness :
    BaseMotion.stop
        { sync_stop := true,
          hookStartOutcome := some (Exc.ordinary "boom"),
          hookEndOutcome := none }
        (some (Exc.ordinary "fault")) =
      (MEvent.callStartStopHook (some (Exc.ordinary "fault")) ::
        MEvent.callGroupStop ::
        ([MEvent.callWaitStopped none] ++ [MEvent.callEndStopHook]), none) := by
  have h := stop_sequence_spec
    { sync_stop := true,
      hookStartOutcome := some (Exc.ordinary "boom"),
      hookEndOutcome := none }
    (some (Exc.ordinary "fault"))
    (by intro e he; cases he; rfl)
    (by intro e he; cases he)
  simpa using h

/-- C10: when the on_start_stop hook raises a BaseException that is not
an ordinary Exception, BaseMotion.stop propagates it at once: its trace
is only the hook invocation, and Group.stop is never issued. -/
theorem stop_fatal_propagates (m : BaseMotion) (info : Option Exc) (e : Exc)
    (h : m.hookStartOutcome = some e) (hf : e.isOrdinary = false) :
    m.stop info = ([MEvent.callStartStopHook info], some e) ∧
      MEvent.callGroupStop ∉ (m.stop info).1 := by
  have hs : swallowOrdinary m.hookStartOutcome = some e := by
    simp [swallowOrdinary, h, hf]
  constructor
  · simp [BaseMotion.stop, BaseMotion.start_stop, hs]
  · simp [BaseMotion.stop, BaseMotion.start_stop, hs]

/-- Witness for C10: a KeyboardInterrupt-like exception raised by the
start hook aborts the stop sequence before Group.stop. -/
theorem stop_fatal_propagates_witness :
    BaseMotion.stop
        { sync_stop := true,
          hookStartOutcome := some (Exc.fatal "KeyboardInterrupt"),
          hookEndOutcome := none } none =
      ([MEvent.callStartStopHook none], some (Exc.fatal "KeyboardInterrupt")) := by
  have h := stop_fatal_propagates
    { sync_stop := true,
      hookStartOutcome := some (Exc.fatal "KeyboardInterrupt"),
      hookEndOutcome := none }
    none (Exc.fatal "KeyboardInterrupt") rfl rfl
  exact h.1

/-- C2 counterexample: entering a motion scope does issue a move
command, contrary to the claim that no move command is issued on entry:
for a concrete Motion with target position 100, the entry trace contains
the batched group move command. -/
theorem motion_enter_moves_cex :
    MEvent.callStartMove [100] ∈
      (Motion.make
        { sync_stop := true, hookStartOutcome := none, hookEndOutcome := none }
        [100] [0]).enter := by
  simp [Motion.enter, Motion.start, Motion.make]

/-- C2 amended: entering a motion scope starts the motion, issuing
exactly the batched group move command toward the target positions
(start positions were captured at construction, which issues no move);
exiting the scope normally performs no further controller action; and
exiting with an active fault invokes stop with that fault's information,
beginning with the on_start_stop hook invocation carrying the fault. -/
theorem motion_scope_amended (b : BaseMotion) (targets currentPos : List Int) :
    (Motion.make b targets currentPos).start_positions = currentPos ∧
    (Motion.make b targets currentPos).enter = [MEvent.callStartMove targets] ∧
    (Motion.make b targets currentPos).exitScope none = ([], none) ∧
    (∀ e : Exc,
      (Motion.make b targets currentPos).exitScope (some e) = b.stop (some e) ∧
      ((Motion.make b targets currentPos).exitScope (some e)).1.head? =
        some (MEvent.callStartStopHook (some e))) := by
  refine ⟨rfl, rfl, rfl, ?_⟩
  intro e
  refine ⟨rfl, ?_⟩
  show (b.stop (some e)).1.head? = some (MEvent.callStartStopHook (some e))
  cases hs : swallowOrdinary b.hookStartOutcome with
  | none => simp [BaseMotion.stop, BaseMotion.start_stop, hs]
  | some ex => simp [BaseMotion.stop, BaseMotion.start_stop, hs]

/-- C9: evaluating the normalization helper on a single motor handle
does not return a singleton Group as claimed; the leftover line 95 of
src/icepap/group.py reads the never-assigned local target_positions and
the call fails with UnboundLocalError. -/
theorem group_single_axis_unbound_local :
    group (GroupParam.axis { ctrl := 0, addr := 1 }) =
      Except.error (PyError.unboundLocal "target_positions") ∧
    ∀ motors : List Axis,
      group (GroupParam.axis { ctrl := 0, addr := 1 }) ≠ Except.ok motors := by
  refine ⟨rfl, ?_⟩
  intro motors h
  simp [group, mkGroup] at h

/-- Auxiliary characterization of the wait_stopped polling loop started
at poll index k0. -/
theorem wait_stopped_go (moving : Nat → Bool) (timeout : Option Int)
    (interval : Int) :
    ∀ (fuel k0 : Nat) (b : Bool) (k : Nat),
      wait_stopped moving timeout interval fuel k0 = some (b, k) →
      k0 ≤ k ∧ (∀ j, k0 ≤ j → j < k → moving j = true) ∧
      (b = true → moving k = false) ∧
      (b = false → pyTruthy timeout = true ∧ (k : Int) * interval > timeout.getD 0) := by
  intro fuel
  induction fuel with
  | zero => intro k0 b k h; simp [wait_stopped] at h
  | succ n ih =>
    intro k0 b k h
    by_cases hm : moving k0 = true
    · rw [wait_stopped, if_pos hm] at h
      by_cases hc : pyTruthy timeout ∧ ((k0 + 1 : Int) * interval > timeout.getD 0)
      · rw [if_pos hc] at h
        cases h
        refine ⟨Nat.le_succ k0, ?_, ?_, ?_⟩
        · intro j h1 h2
          have hje : j = k0 := Nat.le_antisymm (Nat.lt_succ_iff.mp h2) h1
          rw [hje]; exact hm
        · intro hb; exact absurd hb (by decide)
        · intro _
          refine ⟨hc.1, ?_⟩
          have hgt := hc.2
          push_cast
          push_cast at hgt
          exact hgt
      · rw [if_neg hc] at h
        obtain ⟨h1, h2, h3, h4⟩ := ih (k0 + 1) b k h
        refine ⟨Nat.le_of_succ_le h1, ?_, h3, h4⟩
        intro j hj1 hj2
        rcases Nat.eq_or_lt_of_le hj1 with he | hl
        · rw [← he]; exact hm
        · exact h2 j hl hj2
    · rw [wait_stopped, if_neg hm] at h
      cases h
      refine ⟨Nat.le_refl k0, ?_, ?_, by intro hb; cases hb⟩
      · intro j h1 h2; exact absurd (Nat.lt_of_le_of_lt h1 h2) (Nat.lt_irrefl k0)
      · intro _; exact Bool.not_eq_true (moving k0) ▸ hm

/-- C8 counterexample: with timeout 0 and a group that is moving at the
first two polls, wait_stopped does not return immediately: the Python
guard testing the timeout is falsy for 0, so the loop sleeps twice and
only then returns True, instead of returning at once as claimed. -/
theorem wait_stopped_zero_timeout_cex :
    wait_stopped (fun k => decide (k < 2)) (some 0) 10 5 0 = some (true, 2) ∧
      (2 : Nat) ≠ 0 := by
  constructor
  · rfl
  · decide

/-- C8 amended: wait_stopped polls the moving state until the group
stops or a truthy timeout elapses, returning True when the group
stopped and False on timeout, with the elapsed time counted as the
number of interval-long sleeps; a timeout argument of 0 is falsy in
Python, so timeout=0 behaves exactly like no timeout at all (the loop
keeps polling while the group moves and can only return True), rather
than returning immediately. -/
theorem wait_stopped_spec_amended (moving : Nat → Bool) (timeout : Option Int)
    (interval : Int) (fuel : Nat) (b : Bool) (k : Nat)
    (h : wait_stopped moving timeout interval fuel 0 = some (b, k)) :
    ((b = true → moving k = false ∧ ∀ j, j < k → moving j = true) ∧
     (b = false → pyTruthy timeout = true ∧ (k : Int) * interval > timeout.getD 0 ∧
        ∀ j, j < k → moving j = true) ∧
     (pyTruthy timeout = false → b = true)) ∧
    (∀ (mv : Nat → Bool) (i : Int) (fl st : Nat),
      wait_stopped mv (some 0) i fl st = wait_stopped mv none i fl st) := by
  obtain ⟨h1, h2, h3, h4⟩ := wait_stopped_go moving timeout interval fuel 0 b k h
  constructor
  · refine ⟨?_, ?_, ?_⟩
    · intro hb
      exact ⟨h3 hb, fun j hj => h2 j (Nat.zero_le j) hj⟩
    · intro hb
      exact ⟨(h4 hb).1, (h4 hb).2, fun j hj => h2 j (Nat.zero_le j) hj⟩
    · intro ht
      cases b with
      | true => rfl
      | false => rw [(h4 rfl).1] at ht; cases ht
  · intro mv i fl
    induction fl with
    | zero => intro st; rfl
    | succ n ih =>
      intro st
      show wait_stopped mv (some 0) i (n + 1) st = wait_stopped mv none i (n + 1) st
      rw [wait_stopped, wait_stopped]
      have hz : pyTruthy (some 0) = false := by decide
      have hn : pyTruthy none = false := rfl
      rw [hz, hn]
      simp only [Bool.false_eq_true, false_and, if_false]
      by_cases hm : mv st = true
      · rw [if_pos hm, if_pos hm]; exact ih (st + 1)
      · rw [if_neg hm, if_neg hm]

/-- Witness for C8 amended: a concrete run with a positive timeout that
expires while the group is still moving returns False after one sleep. -/
theorem wait_stopped_spec_amended_witness :
    pyTruthy (some 5) = true ∧
      ((1 : Nat) : Int) * 10 > Option.getD (some (5 : Int)) 0 := by
  have h := wait_stopped_spec_amended (fun k => decide (k < 9)) (some 5) 10 3
    false 1 (by rfl)
  exact ⟨(h.1.2.1 rfl).1, (h.1.2.1 rfl).2.1⟩

/-- C3: evaluating ensure_power at a concrete failing input: one axis
with power off, desired state on, and a guarded block that raises.  The
guard powers the axis on at entry, but because the source lacks a
try/finally around the yield it never issues the restoring set_power on
the exceptional exit, leaving the axis powered on instead of restoring
it to off as the claim requires. -/
theorem ensure_power_no_restore_on_raise :
    ensure_power { axes := [1], powers := [false] } true true =
      ([PEvent.setPower [1] true], true) ∧
    applyPowerTrace [1] [false]
        (ensure_power { axes := [1], powers := [false] } true true).1 = [true] ∧
    ([true] : List Bool) ≠ [false] := by
  refine ⟨rfl, rfl, ?_⟩
  decide

/-- Splitting a separator-free list followed by anything: the split of
the concatenation is the split of the tail, shifted by the head. -/
theorem splitEol_none_append (sep : Char) (b : List Char) :
    ∀ a : List Char, splitEol sep a = none →
      splitEol sep (a ++ b) =
        (splitEol sep b).map (fun p => (a ++ p.1, p.2)) := by
  intro a
  induction a with
  | nil =>
    intro _
    cases hb : splitEol sep b with
    | none => simp [hb]
    | some p => simp [hb]
  | cons x xs ih =>
    intro h
    by_cases hx : x = sep
    · rw [splitEol, if_pos hx] at h; cases h
    · rw [splitEol, if_neg hx] at h
      have hxs : splitEol sep xs = none := by
        cases hc : splitEol sep xs with
        | none => rfl
        | some p => rw [hc] at h; cases h
      have ha := ih hxs
      show splitEol sep (x :: (xs ++ b)) = _
      rw [splitEol, if_neg hx, ha]
      cases hb : splitEol sep b with
      | none => simp [hb]
      | some p => simp [hb]

/-- Splitting a list that contains the separator followed by anything:
the line is unchanged and the leftover is extended. -/
theorem splitEol_some_append (sep : Char) (b : List Char) :
    ∀ (a l r : List Char), splitEol sep a = some (l, r) →
      splitEol sep (a ++ b) = some (l, r ++ b) := by
  intro a
  induction a with
  | nil => intro l r h; cases h
  | cons x xs ih =>
    intro l r h
    by_cases hx : x = sep
    · rw [splitEol, if_pos hx] at h
      cases h
      show splitEol sep (x :: (xs ++ b)) = _
      rw [splitEol, if_pos hx]
    · rw [splitEol, if_neg hx] at h
      cases hc : splitEol sep xs with
      | none => rw [hc] at h; cases h
      | some p =>
        rw [hc] at h
        cases h
        have ha := ih p.1 p.2 (by rw [hc])
        show splitEol sep (x :: (xs ++ b)) = _
        rw [splitEol, if_neg hx, ha]

/-- Characterization of the readline accumulation loop: when the
separator occurs somewhere in the buffer followed by the pending
chunks, the loop returns the first line, and the new buffer together
with the unconsumed chunks is exactly the remainder after that line. -/
theorem readline_go_spec (sep : Char) (fin : StreamEnd) :
    ∀ (chunks : List (List Char)) (buf line rest : List Char),
      (∀ ch ∈ chunks, ch ≠ []) →
      splitEol sep buf = none →
      splitEol sep (buf ++ chunks.flatten) = some (line, rest) →
      ∃ buf2 rem,
        readline_go sep buf chunks fin = (buf2, rem, Except.ok line) ∧
        buf2 ++ rem.flatten = rest ∧ (∀ ch ∈ rem, ch ≠ []) := by
  intro chunks
  induction chunks with
  | nil =>
    intro buf line rest _ hn hs
    rw [List.flatten_nil, List.append_nil, hn] at hs
    cases hs
  | cons c cs ih =>
    intro buf line rest hne hn hs
    have hc : c ≠ [] := hne c (List.mem_cons_self c cs)
    have hassoc : buf ++ (c :: cs).flatten = (buf ++ c) ++ cs.flatten := by
      rw [List.flatten_cons, List.append_assoc]
    rw [hassoc] at hs
    rw [readline_go, if_neg (by simpa [List.isEmpty_iff] using hc)]
    cases hsp : splitEol sep (buf ++ c) with
    | some p =>
      have := splitEol_some_append sep cs.flatten (buf ++ c) p.1 p.2 hsp
      rw [this] at hs
      cases hs
      exact ⟨p.2, cs, rfl, rfl, fun ch hm => hne ch (List.mem_cons_of_mem c hm)⟩
    | none =>
      obtain ⟨buf2, rem, he, hb, hr⟩ :=
        ih (buf ++ c) line rest
          (fun ch hm => hne ch (List.mem_cons_of_mem c hm)) hsp hs
      exact ⟨buf2, rem, he, hb, hr⟩

/-- Characterization of one readline call: when the separator occurs in
the buffer followed by the pending chunks, the call succeeds with the
first line, leaves the connection open with the leftover bytes
buffered, and the unconsumed chunks plus the buffer make up exactly the
remainder. -/
theorem rawReadline_spec (sep : Char) (c : RawConn) (chunks : List (List Char))
    (fin : StreamEnd) (line rest : List Char)
    (hne : ∀ ch ∈ chunks, ch ≠ [])
    (hs : splitEol sep (c.buffer ++ chunks.flatten) = some (line, rest)) :
    ∃ buf2 rem,
      rawReadline sep c chunks fin = ({ c with buffer := buf2 }, rem, Except.ok line) ∧
      buf2 ++ rem.flatten = rest ∧ (∀ ch ∈ rem, ch ≠ []) := by
  cases hb : splitEol sep c.buffer with
  | some p =>
    have := splitEol_some_append sep chunks.flatten c.buffer p.1 p.2 hb
    rw [this] at hs
    cases hs
    refine ⟨p.2, chunks, ?_, rfl, hne⟩
    simp [rawReadline, readline_body, hb]
  | none =>
    obtain ⟨buf2, rem, he, hrest, hr⟩ :=
      readline_go_spec sep fin chunks c.buffer line rest hne hb hs
    refine ⟨buf2, rem, ?_, hrest, hr⟩
    simp [rawReadline, readline_body, hb, he]

/-- C7: for every chunking of the byte stream A, newline, B, newline,
C, newline into non-empty chunks delivered in order, three successive
readline calls on a fresh open connection return exactly the three
lines in order, independent of the chunk boundaries; moreover whenever
the internal buffer already contains the delimiter, readline consumes
the buffered line and performs no socket read at all (the pending
chunks are untouched and the bytes past the delimiter stay buffered). -/
theorem readline_chunk_invariance :
    (∀ chunks : List (List Char),
      chunks.flatten = String.toList "A\nB\nC\n" →
      (∀ ch ∈ chunks, ch ≠ []) →
      (readLines eolChar StreamEnd.timedOut 3
          { state := ConnState.opened, buffer := [] } chunks).1 =
        [Except.ok (String.toList "A\n"), Except.ok (String.toList "B\n"),
          Except.ok (String.toList "C\n")]) ∧
    (∀ (c : RawConn) (chunks : List (List Char)) (fin : StreamEnd)
        (l r : List Char),
      splitEol eolChar c.buffer = some (l, r) →
      rawReadline eolChar c chunks fin =
        ({ c with buffer := r }, chunks, Except.ok l)) := by
  constructor
  · intro chunks hj hne
    have h1 : splitEol eolChar
        (([] : List Char) ++ chunks.flatten) =
        some (String.toList "A\n", String.toList "B\nC\n") := by
      rw [List.nil_append, hj]; decide
    obtain ⟨b1, r1, he1, hb1, hn1⟩ :=
      rawReadline_spec eolChar { state := ConnState.opened, buffer := [] }
        chunks StreamEnd.timedOut _ _ hne h1
    have h2 : splitEol eolChar (b1 ++ r1.flatten) =
        some (String.toList "B\n", String.toList "C\n") := by
      rw [hb1]; decide
    obtain ⟨b2, r2, he2, hb2, hn2⟩ :=
      rawReadline_spec eolChar { state := ConnState.opened, buffer := b1 }
        r1 StreamEnd.timedOut _ _ hn1 h2
    have h3 : splitEol eolChar (b2 ++ r2.flatten) =
        some (String.toList "C\n", []) := by
      rw [hb2]; decide
    obtain ⟨b3, r3, he3, hb3, hn3⟩ :=
      rawReadline_spec eolChar { state := ConnState.opened, buffer := b2 }
        r2 StreamEnd.timedOut _ _ hn2 h3
    show (readLines eolChar StreamEnd.timedOut (2 + 1)
        { state := ConnState.opened, buffer := [] } chunks).1 = _
    rw [readLines, he1]
    show (Except.ok (String.toList "A\n") ::
      (readLines eolChar StreamEnd.timedOut (1 + 1)
        { state := ConnState.opened, buffer := b1 } r1).1, _).1 = _
    rw [readLines, he2]
    show (Except.ok (String.toList "A\n") :: Except.ok (String.toList "B\n") ::
      (readLines eolChar StreamEnd.timedOut (0 + 1)
        { state := ConnState.opened, buffer := b2 } r2).1, _).1 = _
    rw [readLines, he3]
    rfl
  · intro c chunks fin l r h
    simp [rawReadline, readline_body, h]

/-- Witness for C7: the one-byte chunking of the stream yields the
three lines, and a buffered line is consumed without a socket read. -/
theorem readline_chunk_invariance_witness :
    (readLines eolChar StreamEnd.timedOut 3
        { state := ConnState.opened, buffer := [] }
        [String.toList "A", String.toList "\n", String.toList "B",
          String.toList "\n", String.toList "C", String.toList "\n"]).1 =
      [Except.ok (String.toList "A\n"), Except.ok (String.toList "B\n"),
        Except.ok (String.toList "C\n")] ∧
    rawReadline eolChar
        { state := ConnState.opened, buffer := String.toList "A\nB" }
        [String.toList "zzz"] StreamEnd.timedOut =
      ({ state := ConnState.opened, buffer := String.toList "B" },
        [String.toList "zzz"], Except.ok (String.toList "A\n")) := by
  constructor
  · exact readline_chunk_invariance.1 _ (by decide) (by decide)
  · exact readline_chunk_invariance.2
      { state := ConnState.opened, buffer := String.toList "A\nB" }
      [String.toList "zzz"] StreamEnd.timedOut _ _ (by decide)

/-- C5 counterexample: a read on an OPEN connection whose select
expires raises Timeout, and the connection state afterwards is CLOSED,
not OPEN as claimed: the close_on_error decorator catches BaseException,
socket timeouts included, and closes the connection. -/
theorem read_timeout_closes_cex :
    (rawRead { state := ConnState.opened, buffer := [] }
        SelectOutcome.expired).2 = Except.error RErr.timeoutErr ∧
    (rawRead { state := ConnState.opened, buffer := [] }
        SelectOutcome.expired).1.state ≠ ConnState.opened := by
  exact ⟨rfl, by decide⟩

/-- C5 amended: every I/O fault raised by a transport read or write, a
pure timeout included, transitions the connection to CLOSED and is
re-raised: a failing read closes the connection, a failing sendall
closes the connection, and in particular a readline with a finite
timeout against a silent peer raises Timeout and leaves the connection
CLOSED. -/
theorem io_fault_closes_connection :
    ∀ (c : RawConn) (sel : SelectOutcome) (e : RErr),
      ((rawRead c sel).2 = Except.error e →
        (rawRead c sel).1.state = ConnState.closed) ∧
      (∀ (data : List Char) (snd : SendOutcome),
        (rawWrite c data snd).2 = Except.error e →
        (rawWrite c data snd).1.state = ConnState.closed) ∧
      (splitEol eolChar c.buffer = none →
        rawReadline eolChar c [] StreamEnd.timedOut =
          ({ state := ConnState.closed, buffer := [] }, [],
            Except.error RErr.timeoutErr)) := by
  intro c sel e
  refine ⟨?_, ?_, ?_⟩
  · intro h
    revert h
    unfold rawRead close_on_error
    rcases read_body sel c with ⟨c2, v | e2⟩ <;> intro h <;>
      first
      | rfl
      | simp at h
  · intro data snd h
    revert h
    unfold rawWrite close_on_error write_body
    cases snd <;> intro h <;>
      first
      | rfl
      | simp at h
  · intro h
    simp [rawReadline, readline_body, readline_go, h, RawConn.close]

/-- Witness for C5 amended: the concrete expired read, the concrete
timed-out sendall and the concrete silent-peer readline all close the
connection. -/
theorem io_fault_closes_connection_witness :
    (rawRead { state := ConnState.opened, buffer := [] }
        SelectOutcome.expired).1.state = ConnState.closed ∧
    (rawWrite { state := ConnState.opened, buffer := [] }
        (String.toList "x") (SendOutcome.failed RErr.timeoutErr)).1.state =
      ConnState.closed ∧
    rawReadline eolChar { state := ConnState.opened, buffer := [] }
        [] StreamEnd.timedOut =
      ({ state := ConnState.closed, buffer := [] }, [],
        Except.error RErr.timeoutErr) := by
  have h := io_fault_closes_connection
    { state := ConnState.opened, buffer := [] } SelectOutcome.expired
    RErr.timeoutErr
  exact ⟨h.1 rfl, h.2.1 (String.toList "x") (SendOutcome.failed RErr.timeoutErr) rfl,
    h.2.2 rfl⟩

/-- C6: evaluating the stream loop at a concrete run refuting the
claimed budget arithmetic: with a timeout of 1000 ms and two partial
reads of 600 ms each, the remaining budget after the two reads is
2200 ms instead of the claimed 1000 - 600 - 600 = -200 ms, because the
source executes timeout -= start - end with start taken before the
select and end after it, thereby adding the elapsed time; no Timeout is
raised although the call has already lasted 1200 ms, longer than the
whole 1000 ms budget, so the total latency is not bounded by the given
timeout. -/
theorem stream_budget_grows :
    stream (some 1000)
        [SelectEvent.ready (String.toList "x") 600,
          SelectEvent.ready (String.toList "y") 600] =
      ([String.toList "x", String.toList "y"], some 2200,
        StreamOutcome.pending) ∧
    (2200 : Int) ≠ 1000 - 600 - 600 ∧
    StreamOutcome.pending ≠ StreamOutcome.timedOut := by
  refine ⟨by decide, by decide, by decide⟩

/-- C4: behaviour of the ensure_connection wrapper.  A non-timeout
fault on a pre-existing connection closes the transport and retries
exactly once, reconnecting (counter +1) and repeating the operation,
whose outcome is final.  A non-timeout fault on the connection created
by this same call is not retried: the call makes exactly one real
connection attempt, the counter grows by exactly 1, and the fault
propagates.  A timeout is re-raised as is: no retry, no close call and
no reconnection beyond the lazy initial connect of an unconnected
client. -/
theorem ensure_connection_retry_spec (s : TCPConn) (outcomes : Nat → OpOutcome) :
    (s.connected = true → outcomes 0 = OpOutcome.osFault →
      ensure_connection outcomes s =
        ([TEvent.opInvoke, TEvent.closeCall, TEvent.connectAttempt,
            TEvent.opInvoke],
          (invokeOp { connected := true, counter := s.counter + 1 }
            (outcomes 1)).1,
          opResult (outcomes 1))) ∧
    (s.connected = false → outcomes 0 = OpOutcome.osFault →
      ensure_connection outcomes s =
        ([TEvent.connectAttempt, TEvent.opInvoke, TEvent.closeCall],
          { connected := false, counter := s.counter + 1 },
          Except.error TErr.osE)) ∧
    (outcomes 0 = OpOutcome.timeoutFault →
      (ensure_connection outcomes s).2.2 = Except.error TErr.timeoutE ∧
      (ensure_connection outcomes s).1.count TEvent.connectAttempt =
        (if s.connected then 0 else 1) ∧
      (ensure_connection outcomes s).1.count TEvent.opInvoke = 1 ∧
      TEvent.closeCall ∉ (ensure_connection outcomes s).1) := by
  refine ⟨?_, ?_, ?_⟩
  · intro hc ho
    simp [ensure_connection, ensure_connected, invokeOp, opResult, hc, ho]
  · intro hc ho
    simp [ensure_connection, ensure_connected, invokeOp, opResult, hc, ho]
  · intro ho
    cases hc : s.connected with
    | true =>
      refine ⟨?_, ?_, ?_, ?_⟩ <;>
        simp [ensure_connection, ensure_connected, invokeOp, opResult, hc, ho,
          List.count_cons, List.count_nil]
    | false =>
      refine ⟨?_, ?_, ?_, ?_⟩ <;>
        simp [ensure_connection, ensure_connected, invokeOp, opResult, hc, ho,
          List.count_cons, List.count_nil]

/-- Witness for C4: a connected client whose operation fails once with
a non-timeout fault and then succeeds performs close, reconnect and one
retry; an unconnected client whose operation always fails makes exactly
one connection attempt; a timeout is re-raised without any retry. -/
theorem ensure_connection_retry_spec_witness :
    ensure_connection
        (fun n => if n = 0 then OpOutcome.osFault else OpOutcome.ok)
        { connected := true, counter := 5 } =
      ([TEvent.opInvoke, TEvent.closeCall, TEvent.connectAttempt,
          TEvent.opInvoke],
        { connected := true, counter := 6 }, Except.ok ()) ∧
    ensure_connection (fun _ => OpOutcome.osFault)
        { connected := false, counter := 5 } =
      ([TEvent.connectAttempt, TEvent.opInvoke, TEvent.closeCall],
        { connected := false, counter := 6 }, Except.error TErr.osE) ∧
    (ensure_connection (fun _ => OpOutcome.timeoutFault)
        { connected := true, counter := 5 }).2.2 = Except.error TErr.timeoutE := by
  refine ⟨?_, ?_, ?_⟩
  · have h := (ensure_connection_retry_spec { connected := true, counter := 5 }
      (fun n => if n = 0 then OpOutcome.osFault else OpOutcome.ok)).1 rfl (by decide)
    simpa using h
  · have h := (ensure_connection_retry_spec { connected := false, counter := 5 }
      (fun _ => OpOutcome.osFault)).2.1 rfl rfl
    simpa using h
  · exact ((ensure_connection_retry_spec { connected := true, counter := 5 }
      (fun _ => OpOutcome.timeoutFault)).2.2 rfl).1

end Icepap
